import Mathlib

/-!
# Verification of `movingpandas/trajectory_plotter.py`

A shallow embedding of the trajectory plotting module.  The module is pure
option bookkeeping around two external renderers, so the embedding models:

* Python values appearing in the keyword-options bag (`Val`),
* the mutable keyword-options dictionary (`Bag`),
* the attribute tables of trajectories (`DF`, columns of integer values;
  geometry and float-valued attributes are represented by integers, which is
  enough for every bookkeeping property of the module),
* trajectories and trajectory collections (modelled from the spec, as the
  trajectory data model is an external collaborator of this module),
* the two plotter classes, with all renderer invocations recorded as
  explicit call records so that the arguments of each render call can be
  inspected.

Mutation of `self` and of the trajectory objects is modelled by explicit
state passing: every function returns the updated plotter (and trajectory)
next to its result.
-/

namespace MovingPandas

/-- A Python value as it can appear in the keyword-options bag.  Numeric
values are modelled by integers (the module never does arithmetic on floats,
it only stores and forwards them); `axis` stands for a Matplotlib axes
object. -/
inductive Val where
  | none
  | str (s : String)
  | int (n : Int)
  | bool (b : Bool)
  | strList (l : List String)
  | cmap (m : List (Int × String))
  | axis (id : Nat)
deriving DecidableEq, Repr

/-- Python truthiness of a `Val`. -/
def Val.truthy : Val → Bool
  | .none => false
  | .str s => s ≠ ""
  | .int n => n ≠ 0
  | .bool b => b
  | .strList l => !l.isEmpty
  | .cmap m => !m.isEmpty
  | .axis _ => true

/-- The string carried by a `Val` (used where the source indexes a table by
`self.column`, which is only meaningful for string-valued options). -/
def Val.asStr : Val → String
  | .str s => s
  | _ => ""

/-- The string list carried by a `Val` (used for the `hover_cols` option). -/
def Val.asStrList : Val → List String
  | .strList l => l
  | _ => []

/-- The keyword-options dictionary (`self.kwargs`): an association list from
option name to value, with the dictionary operations the source uses. -/
structure Bag where
  entries : List (String × Val)
deriving DecidableEq, Repr

/-- `d.get(k)` returning `Option.none` when the key is absent. -/
def Bag.get (b : Bag) (k : String) : Option Val :=
  (b.entries.find? (fun p => p.1 == k)).map (fun p => p.2)

/-- Key removal (the destructive part of `d.pop(k, default)`). -/
def Bag.erase (b : Bag) (k : String) : Bag :=
  ⟨b.entries.filter (fun p => p.1 ≠ k)⟩

/-- `d.pop(k, default)`: the value (or default) together with the bag with
the key removed. -/
def Bag.pop (b : Bag) (k : String) (d : Val) : Val × Bag :=
  ((b.get k).getD d, b.erase k)

/-- `k in d`. -/
def Bag.hasKey (b : Bag) (k : String) : Bool :=
  b.entries.any (fun p => p.1 == k)

/-- `d[k] = v`: replace the value in place when the key exists, append the
pair otherwise. -/
def Bag.set (b : Bag) (k : String) (v : Val) : Bag :=
  if b.hasKey k then ⟨b.entries.map (fun p => if p.1 == k then (k, v) else p)⟩
  else ⟨b.entries ++ [(k, v)]⟩

/-- Python's `min` over a list (total; the source errors on an empty list,
which the theorems exclude by hypothesis). -/
def listMin : List Int → Int
  | [] => 0
  | x :: xs => xs.foldl min x

/-- Python's `max` over a list, and pandas `Series.max` over a column. -/
def listMax : List Int → Int
  | [] => 0
  | x :: xs => xs.foldl max x

/-- An attribute table (pandas/GeoPandas data frame): named columns of
values plus a coordinate reference system. -/
structure DF where
  cols : List (String × List Int)
  crs : Option String
deriving DecidableEq, Repr

/-- The list of column names (`df.columns`). -/
def DF.columns (d : DF) : List String := d.cols.map (fun p => p.1)

/-- `name in df.columns`. -/
def DF.hasCol (d : DF) (c : String) : Bool := d.cols.any (fun p => p.1 == c)

/-- `df[c]` (total; empty for a missing column, where the source would
raise). -/
def DF.getCol (d : DF) (c : String) : List Int :=
  (((d.cols.find? (fun p => p.1 == c))).map (fun p => p.2)).getD []

/-- `df[c] = v`: replace the column in place when present, append it
otherwise. -/
def DF.setCol (d : DF) (c : String) (v : List Int) : DF :=
  if d.hasCol c then ⟨d.cols.map (fun p => if p.1 == c then (c, v) else p), d.crs⟩
  else ⟨d.cols ++ [(c, v)], d.crs⟩

/-- `df.drop(columns, axis=1)`. -/
def DF.dropCols (d : DF) (cs : List String) : DF :=
  ⟨d.cols.filter (fun p => !(cs.contains p.1)), d.crs⟩

/-- `df.rename(columns={old: new})`. -/
def DF.renameCol (d : DF) (old new' : String) : DF :=
  ⟨d.cols.map (fun p => if p.1 == old then (new', p.2) else p), d.crs⟩

/-- `df.tail(1)`: keep the last row of every column. -/
def DF.tail1 (d : DF) : DF :=
  ⟨d.cols.map (fun p => (p.1, p.2.drop (p.2.length - 1))), d.crs⟩

/-- `gdf.set_geometry(c)`: which column is the active geometry is not
observable by any property of this module, so the call is the identity
here. -/
def DF.set_geometry (d : DF) (_c : String) : DF := d

/-- `gdf.set_crs(crs, allow_override=True)`. -/
def DF.set_crs (d : DF) (c : String) : DF := ⟨d.cols, some c⟩

/-- `gdf.to_crs(epsg=4326)`: reprojection of the geometry values is owned by
the external collaborator; the module only observes the crs change. -/
def DF.to_crs_4326 (d : DF) : DF := ⟨d.cols, some "EPSG:4326"⟩

/-- Modelled from the spec: the trajectory data model is an external
collaborator ("position sequences, speed/direction derivation, coordinate
reference system handling" are out of scope of the module).  A trajectory
carries its attribute table, its crs and lat/lon flag, the column names its
accessors report, and the series its speed/direction derivation would
compute. -/
structure Trajectory where
  df : DF
  crs : Option String
  is_latlon : Bool
  speed_col : String
  direction_col : String
  geom_col : String
  speed_values : List Int
  direction_values : List Int
deriving DecidableEq, Repr

/-- Modelled from the spec: `traj.copy()` returns an independent deep copy
("copy semantics prevent pollution"); with value semantics this is the
identity, and mutation of the copy is modelled by rebinding it. -/
def Trajectory.copy (t : Trajectory) : Trajectory := t

/-- Modelled from the spec: `traj.add_speed(overwrite=True)` materialises
the derived speed series as a column of the trajectory's own table
("derived-attribute computation (speed, direction) with in-place caching
semantics"). -/
def Trajectory.add_speed (t : Trajectory) : Trajectory :=
  { t with df := t.df.setCol t.speed_col t.speed_values }

/-- Modelled from the spec: `traj.add_direction(name=n)` materialises the
derived direction series as column `n` of the trajectory's own table. -/
def Trajectory.add_direction (t : Trajectory) (name : String) : Trajectory :=
  { t with df := t.df.setCol name t.direction_values }

/-- Modelled from the spec: `traj._to_line_df()` derives the per-segment
line table, keeping the attribute columns and adding the raw point
geometry's helper columns `prev_pt` and `line` that the plotter drops or
renames. -/
def Trajectory.to_line_df (t : Trajectory) : DF :=
  (t.df.setCol "prev_pt" (t.df.getCol t.geom_col)).setCol "line"
    (t.df.getCol t.geom_col)

/-- Modelled from the spec: a trajectory collection is an ordered sequence
of trajectories with aggregate accessors. -/
structure TrajectoryCollection where
  trajectories : List Trajectory
deriving DecidableEq, Repr

/-- Modelled from the spec: `collection.get_min(column)`, the aggregate
minimum of the named attribute across all members. -/
def TrajectoryCollection.get_min (tc : TrajectoryCollection) (c : String) : Int :=
  listMin (tc.trajectories.map (fun t => listMin (t.df.getCol c)))

/-- Modelled from the spec: `collection.get_max(column)`, the aggregate
maximum of the named attribute across all members. -/
def TrajectoryCollection.get_max (tc : TrajectoryCollection) (c : String) : Int :=
  listMax (tc.trajectories.map (fun t => listMax (t.df.getCol c)))

/-- The arguments of one static render call `line_df.plot(...)`.  `color`,
`vmin`, `vmax` are `Option.none` when the corresponding keyword argument is
not passed explicitly (the recorded `kwargs` bag is forwarded as `**kwargs`
either way). -/
structure PlotCall where
  df : DF
  ax : Val
  color : Option Val
  vmin : Option Val
  vmax : Option Val
  kwargs : Bag
deriving DecidableEq, Repr

/-- The static renderer (`GeoDataFrame.plot`) returns the axes it drew on,
creating fresh axes when none were supplied. -/
def renderPlot (call : PlotCall) : Val :=
  if call.ax.truthy then call.ax else .axis 0

/-- The arguments of one interactive line render call `line_gdf.hvplot(...)`. -/
structure HvLineCall where
  df : DF
  color : Option Val
  line_width : Val
  geo : Val
  tiles : Val
  label : Option Val
  kwargs : Bag
deriving DecidableEq, Repr

/-- The arguments of one interactive end-marker render call
`end_pt_df.hvplot(...)`; `angle` records the column name bound through
`dim`. -/
structure HvTriCall where
  df : DF
  geo : Val
  tiles : Val
  marker : Val
  angle : Val
  size : Val
  kwargs : Bag
deriving DecidableEq, Repr

/-- A composable interactive drawable: the result of a line or end-marker
render, or an overlay `a * b`. -/
inductive Drawable where
  | line (c : HvLineCall)
  | tri (c : HvTriCall)
  | mul (a b : Drawable)
deriving DecidableEq, Repr

/-- One recorded renderer invocation. -/
inductive REvent where
  | staticCall (c : PlotCall)
  | hvLine (c : HvLineCall)
  | hvTri (c : HvTriCall)
deriving DecidableEq, Repr

/-- The state of a `_TrajectoryPlotter` (also used for the collection
subclass, whose `_speeds` list is the `speeds` field).  Fields are exactly
the attributes `__init__` assigns; the overlay accumulator is added by the
drawable model below. -/
structure Plotter where
  kwargs : Bag
  overlay : Option Drawable
  width : Val
  height : Val
  figsize : Val
  column : Val
  ax : Val
  colormap : Val
  min_value : Val
  max_value : Val
  hvplot_is_geo : Val
  hvplot_tiles : Val
  marker_size : Val
  marker_color : Val
  line_width : Val
  speeds : List (List Int)
deriving DecidableEq, Repr

/-- `_TrajectoryPlotter.__init__` (and, with `speeds := []`, the collection
subclass constructor): pops or reads the module-specific options in source
order.  The float default `3.0` of `line_width` is carried as the integer
`3`; no property depends on its value. -/
def initPlotter (kwargs0 : Bag) : Plotter :=
  let (width, k) := kwargs0.pop "width" (.int 900)
  let (height, k) := k.pop "height" (.int 700)
  let (figsize, k) := k.pop "figsize" .none
  let column := (k.get "column").getD .none
  let column := (k.get "c").getD column
  let (ax, k) := k.pop "ax" .none
  let (colormap, k) := k.pop "colormap" .none
  let (colormap, k) := k.pop "column_to_color" colormap
  let min_value := (k.get "vmin").getD .none
  let max_value := (k.get "vmax").getD .none
  let (geo, k) := k.pop "geo" (.bool true)
  let (tiles, k) := k.pop "tiles" (.str "OSM")
  let (marker_size, k) := k.pop "marker_size" (.int 200)
  let (marker_color, k) := k.pop "marker_color" .none
  let (line_width, k) := k.pop "line_width" (.int 3)
  { kwargs := k, overlay := Option.none,
    width := width, height := height, figsize := figsize,
    column := column, ax := ax, colormap := colormap,
    min_value := min_value, max_value := max_value,
    hvplot_is_geo := geo, hvplot_tiles := tiles,
    marker_size := marker_size, marker_color := marker_color,
    line_width := line_width, speeds := [] }

/-- `_TrajectoryPlotter._make_line_df`: build the segment table on a copy of
the trajectory, materialising the speed column on the copy first when it is
the requested color column and absent.  Returns the line table together
with the (untouched) caller trajectory. -/
def make_line_df (p : Plotter) (traj : Trajectory) : DF × Trajectory :=
  let temp := traj.copy
  let temp :=
    if p.column.truthy then
      let speed_col_name := traj.speed_col
      if p.column == Val.str speed_col_name &&
          !(traj.df.hasCol speed_col_name) then
        temp.add_speed
      else temp
    else temp
  let line_gdf := temp.to_line_df
  let line_gdf := line_gdf.dropCols [temp.geom_col, "prev_pt"]
  let line_gdf := line_gdf.renameCol "line" "geometry"
  let line_gdf := line_gdf.set_geometry "geometry"
  let line_gdf :=
    match traj.crs with
    | some c => line_gdf.set_crs c
    | Option.none => line_gdf
  (line_gdf, traj)

/-- `_TrajectoryPlotter._get_trajectory_end_with_direction`: last row with a
`triangle_angle` column equal to the negated direction, adding (and
afterwards dropping) the direction column when it was absent. -/
def get_trajectory_end_with_direction (traj : Trajectory) : DF × Trajectory :=
  let direction_column_name := traj.direction_col
  let direction_exists := traj.df.hasCol direction_column_name
  let traj :=
    if direction_exists then traj else traj.add_direction direction_column_name
  let tmp := traj.df.tail1
  let tmp := tmp.setCol "triangle_angle"
    ((tmp.getCol direction_column_name).map (fun x => -x))
  let traj :=
    if direction_exists then traj
    else { traj with df := traj.df.dropCols [direction_column_name] }
  (tmp, traj)

/-- `dict[key]` lookup with the source's `except KeyError: color = "grey"`
fallback around it.  The source only ever indexes a value-to-color mapping
here, so non-mapping values of the option are not distinguished. -/
def colormapLookup (cm : Val) (v : Int) : Val :=
  match cm with
  | .cmap m =>
      match m.find? (fun q => q.1 == v) with
      | some q => .str q.2
      | Option.none => .str "grey"
  | _ => .str "grey"

/-- The result of `_TrajectoryPlotter._plot_trajectory`: the returned axes,
the updated plotter and trajectory, and the recorded render call. -/
structure StaticResult where
  ax : Val
  plotter : Plotter
  traj : Trajectory
  call : PlotCall
deriving DecidableEq, Repr

/-- `_TrajectoryPlotter._plot_trajectory`. -/
def plot_trajectory (p : Plotter) (traj : Trajectory) : StaticResult :=
  let (line_df, traj) := make_line_df p traj
  if p.column.truthy && p.colormap.truthy then
    let color := colormapLookup p.colormap (listMax (traj.df.getCol p.column.asStr))
    let call : PlotCall :=
      { df := line_df, ax := p.ax, color := some color,
        vmin := Option.none, vmax := Option.none, kwargs := p.kwargs }
    { ax := renderPlot call, plotter := p, traj := traj, call := call }
  else
    let k := (p.kwargs.erase "vmin").erase "vmax"
    let p := { p with kwargs := k }
    let call : PlotCall :=
      { df := line_df, ax := p.ax, color := Option.none,
        vmin := some p.min_value, vmax := some p.max_value, kwargs := k }
    { ax := renderPlot call, plotter := p, traj := traj, call := call }

/-- `_TrajectoryPlotter.plot`: ensure axes exist, render once, then set
`legend` to `False` and drop the `column` option for any later call. -/
def Plotter.plot (p : Plotter) (traj : Trajectory) : StaticResult :=
  let p := if p.ax.truthy then p else { p with ax := .axis 0 }
  let r := plot_trajectory p traj
  let p := r.plotter
  let p := { p with kwargs := p.kwargs.set "legend" (.bool false) }
  let p := { p with kwargs := p.kwargs.erase "column" }
  { ax := r.ax, plotter := p, traj := r.traj, call := r.call }

/-- The result of `_TrajectoryPlotter._hvplot_end_triangle`. -/
structure HvTriResult where
  plotter : Plotter
  traj : Trajectory
  call : HvTriCall
deriving DecidableEq, Repr

/-- `_TrajectoryPlotter._hvplot_end_triangle`: rebuild the `hover_cols`
option in the shared bag, optionally set the marker color, derive the
end-point table and issue the end-marker render call. -/
def hvplot_end_triangle (p : Plotter) (traj : Trajectory) : HvTriResult :=
  let k := p.kwargs.erase "tiles"
  let hover_cols := (k.get "hover_cols").getD .none
  let k := k.erase "hover_cols"
  let k := k.set "hover_cols" (.strList ["triangle_angle"])
  let k :=
    if hover_cols.truthy then
      k.set "hover_cols"
        (.strList (((k.get "hover_cols").getD .none).asStrList ++ hover_cols.asStrList))
    else k
  let k := if p.marker_color.truthy then k.set "color" p.marker_color else k
  let k :=
    if p.column.truthy then
      k.set "hover_cols"
        (.strList (((k.get "hover_cols").getD .none).asStrList ++ [p.column.asStr]))
    else k
  let p := { p with kwargs := k }
  let (end_pt_df, traj) := get_trajectory_end_with_direction traj
  let end_pt_df :=
    if p.hvplot_is_geo.truthy && !traj.is_latlon && traj.crs.isSome then
      end_pt_df.to_crs_4326
    else end_pt_df
  let call : HvTriCall :=
    { df := end_pt_df, geo := p.hvplot_is_geo, tiles := .none,
      marker := .str "triangle", angle := .str "triangle_angle",
      size := p.marker_size, kwargs := p.kwargs }
  { plotter := p, traj := traj, call := call }

/-- The result of `_TrajectoryPlotter._hvplot_trajectory`: the composed
drawable plus the two recorded render calls. -/
structure HvResult where
  drawable : Drawable
  lineCall : HvLineCall
  triCall : HvTriCall
  plotter : Plotter
  traj : Trajectory
deriving DecidableEq, Repr

/-- `_TrajectoryPlotter._hvplot_trajectory`. -/
def hvplot_trajectory (p : Plotter) (traj : Trajectory) : HvResult :=
  let (line_gdf, traj) := make_line_df p traj
  let line_gdf :=
    if p.hvplot_is_geo.truthy && !traj.is_latlon && traj.crs.isSome then
      line_gdf.to_crs_4326
    else line_gdf
  if p.column.truthy && p.colormap.truthy then
    let mx := listMax (traj.df.getCol p.column.asStr)
    let color := colormapLookup p.colormap mx
    let lineCall : HvLineCall :=
      { df := line_gdf, color := some color, line_width := p.line_width,
        geo := p.hvplot_is_geo, tiles := p.hvplot_tiles,
        label := some (.int mx), kwargs := p.kwargs }
    let r := hvplot_end_triangle p traj
    { drawable := .mul (.line lineCall) (.tri r.call),
      lineCall := lineCall, triCall := r.call,
      plotter := r.plotter, traj := r.traj }
  else
    let p :=
      if p.kwargs.hasKey "colorbar" then p
      else { p with kwargs := p.kwargs.set "colorbar" (.bool true) }
    let lineCall : HvLineCall :=
      { df := line_gdf, color := Option.none, line_width := p.line_width,
        geo := p.hvplot_is_geo, tiles := p.hvplot_tiles,
        label := Option.none, kwargs := p.kwargs }
    let r := hvplot_end_triangle p traj
    { drawable := .mul (.line lineCall) (.tri r.call),
      lineCall := lineCall, triCall := r.call,
      plotter := r.plotter, traj := r.traj }

/-- The capability-missing message raised by both `hvplot` entry points
(the source's implicitly concatenated string literal, verbatim). -/
def importErrorMsg : String :=
  "Missing optional dependencies. To use interactive plotting, " ++
  "install hvplot and GeoViews (see " ++
  "https://hvplot.holoviz.org/getting_started/installation.html and " ++
  "https://geoviews.org)."

deriving instance DecidableEq for Except

/-- The result of a top-level interactive entry point: the returned
drawable or the raised error, plus the recorded render calls. -/
structure SingleHvResult where
  result : Except String Drawable
  events : List REvent
  plotter : Plotter
  traj : Trajectory
deriving DecidableEq, Repr

/-- `_TrajectoryPlotter.hvplot`: the import guard, then the one-time
overlay display configuration (external, unrecorded), then one composed
render.  `available` models whether hvplot/GeoViews import succeeds. -/
def Plotter.hvplot (available : Bool) (p : Plotter) (traj : Trajectory) :
    SingleHvResult :=
  if available then
    let r := hvplot_trajectory p traj
    { result := .ok r.drawable,
      events := [.hvLine r.lineCall, .hvTri r.triCall],
      plotter := r.plotter, traj := r.traj }
  else
    { result := .error importErrorMsg, events := [], plotter := p, traj := traj }

/-- `_TrajectoryCollectionPlotter.get_min_max_speed`: append every member's
freshly computed speed series to `self._speeds` and take the global min and
max of all stored series. -/
def get_min_max_speed (p : Plotter) (data : TrajectoryCollection) :
    Int × Int × Plotter :=
  let speeds := data.trajectories.foldl
    (fun acc traj =>
      let temp := traj.copy
      let temp := temp.add_speed
      acc ++ [temp.df.getCol p.column.asStr])
    p.speeds
  let p := { p with speeds := speeds }
  (listMin (speeds.map listMin), listMax (speeds.map listMax), p)

/-- A junk trajectory standing for Python's `IndexError` on
`trajectories[0]` of an empty collection (the theorems assume a nonempty
collection). -/
def dfltTraj : Trajectory :=
  { df := ⟨[], Option.none⟩, crs := Option.none, is_latlon := false,
    speed_col := "", direction_col := "", geom_col := "",
    speed_values := [], direction_values := [] }

/-- `self.column not in column_names` for a `Val`-typed option: a
non-string option is never an element of a list of column names. -/
def colMem (c : Val) (names : List String) : Bool :=
  match c with
  | .str s => names.contains s
  | _ => false

/-- `_TrajectoryCollectionPlotter.get_min_max_values`: compute the shared
scale, then pop `vmin`/`vmax` from the bag with the computed bounds as
defaults and store the popped values as the active bounds.  Returns the
computed pair (as the source does). -/
def get_min_max_values (p : Plotter) (data : TrajectoryCollection) :
    Int × Int × Plotter :=
  let t0 := data.trajectories.headD dfltTraj
  let column_names := t0.df.columns
  let speed_column_name := t0.speed_col
  let (min_value, max_value, p) :=
    if p.column == Val.str speed_column_name && !(colMem p.column column_names)
    then get_min_max_speed p data
    else (data.get_min p.column.asStr, data.get_max p.column.asStr, p)
  let (mnV, k) := p.kwargs.pop "vmin" (.int min_value)
  let (mxV, k) := k.pop "vmax" (.int max_value)
  let p := { p with kwargs := k, min_value := mnV, max_value := mxV }
  (min_value, max_value, p)

/-- One iteration of the `for i, traj in enumerate(self.data)` loop of
`_TrajectoryCollectionPlotter.plot`: render the member (onto a copy
carrying the cached speed series when the speed column needs
materialising), store the returned axes, then set `legend` to `False`. -/
def collectionPlotStep (acc : Plotter × List PlotCall) (it : Nat × Trajectory) :
    Plotter × List PlotCall :=
  let (p, calls) := acc
  let (i, traj) := it
  let speed_col_name := traj.speed_col
  let r :=
    if p.column == Val.str speed_col_name &&
        !(colMem p.column traj.df.columns) then
      let temp := traj.copy
      let temp :=
        { temp with df := temp.df.setCol p.column.asStr (p.speeds.getD i []) }
      plot_trajectory p temp
    else
      plot_trajectory p traj
  let p := { r.plotter with ax := r.ax }
  let p := { p with kwargs := p.kwargs.set "legend" (.bool false) }
  (p, calls ++ [r.call])

/-- The result of `_TrajectoryCollectionPlotter.plot`. -/
structure CollectionPlotResult where
  ax : Val
  plotter : Plotter
  calls : List PlotCall
deriving DecidableEq, Repr

/-- `_TrajectoryCollectionPlotter.plot`. -/
def collectionPlot (p : Plotter) (data : TrajectoryCollection) :
    CollectionPlotResult :=
  let p := if p.column.truthy then (get_min_max_values p data).2.2 else p
  let p := if p.ax.truthy then p else { p with ax := .axis 0 }
  let r := (data.trajectories.enum).foldl collectionPlotStep (p, [])
  { ax := r.1.ax, plotter := r.1, calls := r.2 }

/-- One iteration of the `for traj in self.data` loop of
`_TrajectoryCollectionPlotter.hvplot`: render the member, composite it onto
the running overlay, then disable basemap tiles for later iterations. -/
def collectionHvStep (acc : Plotter × List REvent) (traj : Trajectory) :
    Plotter × List REvent :=
  let (p, evs) := acc
  let r := hvplot_trajectory p traj
  let p := r.plotter
  let p :=
    { p with overlay :=
        match p.overlay with
        | some o => some (.mul o r.drawable)
        | Option.none => some r.drawable }
  let p := { p with hvplot_tiles := .bool false }
  (p, evs ++ [.hvLine r.lineCall, .hvTri r.triCall])

/-- The result of `_TrajectoryCollectionPlotter.hvplot` (`Option.none`
inside `.ok` is the `None` returned for an empty collection). -/
structure CollectionHvResult where
  result : Except String (Option Drawable)
  events : List REvent
  plotter : Plotter
deriving DecidableEq, Repr

/-- `_TrajectoryCollectionPlotter.hvplot`. -/
def collectionHvplot (available : Bool) (p : Plotter)
    (data : TrajectoryCollection) : CollectionHvResult :=
  if available then
    let r := data.trajectories.foldl collectionHvStep (p, [])
    { result := .ok r.1.overlay, events := r.2, plotter := r.1 }
  else
    { result := .error importErrorMsg, events := [], plotter := p }

/-- The basemap-tile arguments of the interactive line render calls of a
trace, in call order. -/
def lineTiles (evs : List REvent) : List Val :=
  evs.filterMap (fun e =>
    match e with
    | .hvLine c => some c.tiles
    | _ => Option.none)

/-- The `hover_cols` option carried into each end-marker render call of a
trace, in call order. -/
def triHoverLists (evs : List REvent) : List (List String) :=
  evs.filterMap (fun e =>
    match e with
    | .hvTri c => some (((c.kwargs.get "hover_cols").getD .none).asStrList)
    | _ => Option.none)

/-- A default render-call record (only used as the `headD` default when a
concrete witness extracts a call that provably exists). -/
def dfltCall : PlotCall :=
  { df := ⟨[], Option.none⟩, ax := .none, color := Option.none,
    vmin := Option.none, vmax := Option.none, kwargs := ⟨[]⟩ }

/-- A concrete two-point trajectory whose `speed` column is materialised
(values 1 and 2), used by concrete counterexamples and witnesses. -/
def cexTraj : Trajectory :=
  { df := ⟨[("geom", [7, 8]), ("speed", [1, 2])], Option.none⟩,
    crs := Option.none, is_latlon := false, speed_col := "speed",
    direction_col := "direction", geom_col := "geom",
    speed_values := [1, 2], direction_values := [0, 0] }

/-- A concrete two-point trajectory without a materialised `speed` column
(derived speed series 4 and 6), used by concrete counterexamples and
witnesses. -/
def cexTrajNoSpeed : Trajectory :=
  { df := ⟨[("geom", [11, 21])], Option.none⟩,
    crs := Option.none, is_latlon := false, speed_col := "speed",
    direction_col := "direction", geom_col := "geom",
    speed_values := [4, 6], direction_values := [10, 20] }

/-! ## Association-list algebra

Generic lemmas about the string-keyed association lists underlying both the
options bag and the attribute tables. -/

section AssocLemmas

variable {α : Type}

theorem assoc_any_eq_isSome (l : List (String × α)) (k : String) :
    (l.any fun p => p.1 == k) = (l.find? fun p => p.1 == k).isSome := by
  induction l with
  | nil => rfl
  | cons a l ih =>
    by_cases h : a.1 = k
    · rw [List.find?_cons_of_pos _ (by simp [h])]
      simp [h]
    · rw [List.find?_cons_of_neg _ (by simp [h])]
      simp [h, ih]

theorem assoc_find?_filter_self (l : List (String × α)) (k : String) :
    (l.filter fun p => p.1 ≠ k).find? (fun p => p.1 == k) = Option.none := by
  rw [List.find?_eq_none]
  intro x hx
  rw [List.mem_filter] at hx
  simpa using hx.2

theorem assoc_find?_filter_ne (l : List (String × α)) (k k' : String)
    (h : k ≠ k') :
    (l.filter fun p => p.1 ≠ k').find? (fun p => p.1 == k) =
      l.find? (fun p => p.1 == k) := by
  induction l with
  | nil => rfl
  | cons a l ih =>
    by_cases h1 : a.1 = k'
    · rw [List.filter_cons_of_neg (by simp [h1]), ih,
        List.find?_cons_of_neg _ (by simp [h1]; exact Ne.symm h)]
    · rw [List.filter_cons_of_pos (by simp [h1])]
      by_cases h2 : a.1 = k
      · rw [List.find?_cons_of_pos _ (by simp [h2]),
          List.find?_cons_of_pos _ (by simp [h2])]
      · rw [List.find?_cons_of_neg _ (by simp [h2]),
          List.find?_cons_of_neg _ (by simp [h2]), ih]

theorem assoc_find?_append_single_self (l : List (String × α)) (k : String)
    (v : α) (h : (l.find? fun p => p.1 == k) = Option.none) :
    (l ++ [(k, v)]).find? (fun p => p.1 == k) = some (k, v) := by
  rw [List.find?_append, h]
  simp [List.find?]

theorem assoc_find?_append_single_ne (l : List (String × α)) (k k' : String)
    (v : α) (h : k ≠ k') :
    (l ++ [(k', v)]).find? (fun p => p.1 == k) =
      l.find? (fun p => p.1 == k) := by
  rw [List.find?_append]
  have h1 : ([(k', v)].find? fun p => p.1 == k) = Option.none := by
    rw [List.find?_cons_of_neg _ (by simp [Ne.symm h])]
    rfl
  rw [h1, Option.or_none]

theorem assoc_find?_map_replace_self (l : List (String × α)) (k : String)
    (v : α) (h : (l.any fun p => p.1 == k) = true) :
    (l.map fun p => if p.1 == k then (k, v) else p).find?
      (fun p => p.1 == k) = some (k, v) := by
  induction l with
  | nil => simp at h
  | cons a l ih =>
    by_cases h1 : a.1 = k
    · have hhd : (if a.1 == k then (k, v) else a) = (k, v) := by simp [h1]
      rw [List.map_cons, hhd, List.find?_cons_of_pos _ (by simp)]
    · have hhd : (if a.1 == k then (k, v) else a) = a := by simp [h1]
      have h2 : (l.any fun p => p.1 == k) = true := by
        simpa [List.any_cons, h1] using h
      rw [List.map_cons, hhd, List.find?_cons_of_neg _ (by simp [h1]), ih h2]

theorem assoc_find?_map_replace_ne (l : List (String × α)) (k k' : String)
    (v : α) (h : k ≠ k') :
    (l.map fun p => if p.1 == k' then (k', v) else p).find?
      (fun p => p.1 == k) = l.find? (fun p => p.1 == k) := by
  induction l with
  | nil => rfl
  | cons a l ih =>
    by_cases h1 : a.1 = k'
    · have hhd : (if a.1 == k' then (k', v) else a) = (k', v) := by simp [h1]
      rw [List.map_cons, hhd,
        List.find?_cons_of_neg _ (by simp; exact Ne.symm h),
        List.find?_cons_of_neg _ (by simp [h1]; exact Ne.symm h), ih]
    · have hhd : (if a.1 == k' then (k', v) else a) = a := by simp [h1]
      by_cases h2 : a.1 = k
      · rw [List.map_cons, hhd, List.find?_cons_of_pos _ (by simp [h2]),
          List.find?_cons_of_pos _ (by simp [h2])]
      · rw [List.map_cons, hhd, List.find?_cons_of_neg _ (by simp [h2]),
          List.find?_cons_of_neg _ (by simp [h2]), ih]

end AssocLemmas

/-! ## Bag lemmas -/

theorem Bag.get_erase_self (b : Bag) (k : String) :
    (b.erase k).get k = Option.none := by
  rw [Bag.erase, Bag.get]
  simp only [assoc_find?_filter_self]
  rfl

theorem Bag.get_erase_ne (b : Bag) (k k' : String) (h : k ≠ k') :
    (b.erase k').get k = b.get k := by
  rw [Bag.erase, Bag.get, Bag.get]
  simp only [assoc_find?_filter_ne _ _ _ h]

theorem Bag.get_set_self (b : Bag) (k : String) (v : Val) :
    (b.set k v).get k = some v := by
  rw [Bag.set]
  split
  case isTrue h =>
    rw [Bag.get]
    simp only [assoc_find?_map_replace_self _ _ _ h]
    rfl
  case isFalse h =>
    rw [Bag.get]
    rw [Bag.hasKey, assoc_any_eq_isSome] at h
    have hn : (b.entries.find? fun p => p.1 == k) = Option.none := by
      cases hfind : b.entries.find? fun p => p.1 == k with
      | none => rfl
      | some x => rw [hfind] at h; simp at h
    simp only [assoc_find?_append_single_self _ _ _ hn]
    rfl

theorem Bag.get_set_ne (b : Bag) (k k' : String) (v : Val) (h : k ≠ k') :
    (b.set k' v).get k = b.get k := by
  rw [Bag.set]
  split
  · rw [Bag.get, Bag.get]
    simp only [assoc_find?_map_replace_ne _ _ _ _ h]
  · rw [Bag.get, Bag.get]
    simp only [assoc_find?_append_single_ne _ _ _ _ h]

theorem Bag.hasKey_eq_isSome (b : Bag) (k : String) :
    b.hasKey k = (b.get k).isSome := by
  rw [Bag.hasKey, Bag.get, assoc_any_eq_isSome]
  cases b.entries.find? fun p => p.1 == k <;> rfl

theorem Bag.hasKey_erase_self (b : Bag) (k : String) :
    (b.erase k).hasKey k = false := by
  rw [Bag.hasKey_eq_isSome, Bag.get_erase_self]
  rfl

theorem Bag.hasKey_erase_ne (b : Bag) (k k' : String) (h : k ≠ k') :
    (b.erase k').hasKey k = b.hasKey k := by
  rw [Bag.hasKey_eq_isSome, Bag.hasKey_eq_isSome, Bag.get_erase_ne _ _ _ h]

theorem Bag.hasKey_set_ne (b : Bag) (k k' : String) (v : Val) (h : k ≠ k') :
    (b.set k' v).hasKey k = b.hasKey k := by
  rw [Bag.hasKey_eq_isSome, Bag.hasKey_eq_isSome, Bag.get_set_ne _ _ _ _ h]

/-! ## Table lemmas -/

theorem DF.getCol_setCol_self (d : DF) (c : String) (v : List Int) :
    (d.setCol c v).getCol c = v := by
  rw [DF.setCol]
  split
  case isTrue h =>
    rw [DF.getCol]
    simp only [DF.hasCol] at h
    simp only [assoc_find?_map_replace_self _ _ _ h]
    rfl
  case isFalse h =>
    rw [DF.getCol]
    simp only [DF.hasCol] at h
    rw [assoc_any_eq_isSome] at h
    have hn : (d.cols.find? fun p => p.1 == c) = Option.none := by
      cases hfind : d.cols.find? fun p => p.1 == c with
      | none => rfl
      | some x => rw [hfind] at h; simp at h
    simp only [assoc_find?_append_single_self _ _ _ hn]
    rfl

theorem DF.getCol_setCol_ne (d : DF) (c c' : String) (v : List Int)
    (h : c ≠ c') : (d.setCol c' v).getCol c = d.getCol c := by
  rw [DF.setCol]
  split
  · rw [DF.getCol, DF.getCol]
    simp only [assoc_find?_map_replace_ne _ _ _ _ h]
  · rw [DF.getCol, DF.getCol]
    simp only [assoc_find?_append_single_ne _ _ _ _ h]

theorem DF.hasCol_eq_isSome (d : DF) (c : String) :
    d.hasCol c = ((d.cols.find? fun p => p.1 == c)).isSome := by
  rw [DF.hasCol, assoc_any_eq_isSome]

theorem DF.hasCol_eq_contains (d : DF) (c : String) :
    d.hasCol c = d.columns.contains c := by
  rw [DF.hasCol, DF.columns]
  induction d.cols with
  | nil => rfl
  | cons a l ih =>
    rw [List.map_cons, List.any_cons, List.contains_cons, ih]
    by_cases h : a.1 = c
    · simp [h]
    · rw [show (a.1 == c) = false from by simp [h],
        show (c == a.1) = false from by simp [Ne.symm h]]

theorem DF.setCol_dropCols_self (d : DF) (c : String) (v : List Int)
    (h : d.hasCol c = false) : (d.setCol c v).dropCols [c] = d := by
  obtain ⟨l, crs⟩ := d
  rw [DF.setCol, if_neg (by simp [h])]
  rw [DF.hasCol, List.any_eq_false] at h
  have h' : ∀ x ∈ l, ¬(x.1 == c) = true := h
  simp only [DF.dropCols, List.filter_append]
  have h2 : (l.filter fun p => !([c].contains p.1)) = l := by
    rw [List.filter_eq_self]
    intro p hp
    have hc : ¬p.1 = c := by
      simpa using h' p hp
    simp [hc]
  have h3 : ([(c, v)].filter fun p => !([c].contains p.1)) = [] := by
    simp [List.contains_cons]
  rw [h2, h3, List.append_nil]

theorem DF.mem_setCol (d : DF) (c : String) (v : List Int) (s : String)
    (vs : List Int) (h : (s, vs) ∈ (d.setCol c v).cols) :
    (s, vs) ∈ d.cols ∨ vs = v := by
  rw [DF.setCol] at h
  split at h
  · simp only [List.mem_map] at h
    obtain ⟨q, hq, hqe⟩ := h
    by_cases h1 : q.1 = c
    · right
      rw [if_pos (by simp [h1])] at hqe
      exact (Prod.mk.injEq _ _ _ _ ▸ hqe).2.symm ▸ rfl
    · left
      rw [if_neg (by simp [h1])] at hqe
      exact hqe ▸ hq
  · rw [List.mem_append] at h
    rcases h with h | h
    · exact Or.inl h
    · right
      simp only [List.mem_singleton, Prod.mk.injEq] at h
      exact h.2

theorem DF.length_mem_tail1 (d : DF) (s : String) (vs : List Int)
    (h : (s, vs) ∈ d.tail1.cols) : vs.length ≤ 1 := by
  rw [DF.tail1] at h
  simp only [List.mem_map] at h
  obtain ⟨q, _, hqe⟩ := h
  have : vs = q.2.drop (q.2.length - 1) := (Prod.mk.injEq _ _ _ _ ▸ hqe).2.symm
  subst this
  rw [List.length_drop]
  omega

theorem DF.getCol_tail1 (d : DF) (c : String) :
    d.tail1.getCol c = (d.getCol c).drop ((d.getCol c).length - 1) := by
  rw [DF.tail1, DF.getCol, DF.getCol]
  rw [List.find?_map]
  have hpred : ((fun p => p.1 == c) ∘ fun p : String × List Int =>
      (p.1, p.2.drop (p.2.length - 1))) = (fun p => p.1 == c) := rfl
  rw [hpred]
  cases d.cols.find? fun p => p.1 == c with
  | none => rfl
  | some q => rfl

/-! ## Projection lemmas for the render functions -/

theorem make_line_df_snd (p : Plotter) (t : Trajectory) :
    (make_line_df p t).2 = t := rfl

theorem plot_trajectory_traj (p : Plotter) (t : Trajectory) :
    (plot_trajectory p t).traj = t := by
  simp only [plot_trajectory, make_line_df, Trajectory.copy]
  split <;> rfl

theorem plot_trajectory_ax (p : Plotter) (t : Trajectory) :
    (plot_trajectory p t).ax = (if p.ax.truthy then p.ax else Val.axis 0) := by
  simp only [plot_trajectory]
  split <;> rfl

theorem plot_trajectory_plotter_column (p : Plotter) (t : Trajectory) :
    (plot_trajectory p t).plotter.column = p.column := by
  simp only [plot_trajectory]
  split <;> rfl

theorem plot_trajectory_plotter_colormap (p : Plotter) (t : Trajectory) :
    (plot_trajectory p t).plotter.colormap = p.colormap := by
  simp only [plot_trajectory]
  split <;> rfl

theorem plot_trajectory_plotter_min_value (p : Plotter) (t : Trajectory) :
    (plot_trajectory p t).plotter.min_value = p.min_value := by
  simp only [plot_trajectory]
  split <;> rfl

theorem plot_trajectory_plotter_max_value (p : Plotter) (t : Trajectory) :
    (plot_trajectory p t).plotter.max_value = p.max_value := by
  simp only [plot_trajectory]
  split <;> rfl

theorem plot_trajectory_plotter_speeds (p : Plotter) (t : Trajectory) :
    (plot_trajectory p t).plotter.speeds = p.speeds := by
  simp only [plot_trajectory]
  split <;> rfl

theorem plot_trajectory_plotter_kwargs_get_ne (p : Plotter) (t : Trajectory)
    (k : String) (h1 : k ≠ "vmin") (h2 : k ≠ "vmax") :
    (plot_trajectory p t).plotter.kwargs.get k = p.kwargs.get k := by
  simp only [plot_trajectory]
  split
  · rfl
  · show ((p.kwargs.erase "vmin").erase "vmax").get k = p.kwargs.get k
    rw [Bag.get_erase_ne _ _ _ h2, Bag.get_erase_ne _ _ _ h1]

theorem plot_trajectory_call_kwargs_get_ne (p : Plotter) (t : Trajectory)
    (k : String) (h1 : k ≠ "vmin") (h2 : k ≠ "vmax") :
    (plot_trajectory p t).call.kwargs.get k = p.kwargs.get k := by
  simp only [plot_trajectory]
  split
  · rfl
  · show ((p.kwargs.erase "vmin").erase "vmax").get k = p.kwargs.get k
    rw [Bag.get_erase_ne _ _ _ h2, Bag.get_erase_ne _ _ _ h1]

theorem plot_trajectory_call_vmin_vmax (p : Plotter) (t : Trajectory)
    (h : (p.column.truthy && p.colormap.truthy) = false) :
    (plot_trajectory p t).call.vmin = some p.min_value ∧
    (plot_trajectory p t).call.vmax = some p.max_value := by
  simp only [plot_trajectory]
  rw [if_neg (by simp [h])]
  exact ⟨rfl, rfl⟩

theorem plot_trajectory_call_color (p : Plotter) (t : Trajectory)
    (h : (p.column.truthy && p.colormap.truthy) = true) :
    (plot_trajectory p t).call.color =
      some (colormapLookup p.colormap (listMax (t.df.getCol p.column.asStr))) := by
  simp only [plot_trajectory]
  rw [if_pos (by simp [h])]
  simp [make_line_df_snd]

/-! ## Claim theorems -/

/-- C3: whenever the interactive capability (hvplot/GeoViews) is absent,
both interactive entry points raise the capability-missing `ImportError`
whose message names both missing components and links their installation
instructions, without attempting any render call first; when the capability
is present neither entry point raises, so this is the module's only
explicitly raised error condition. -/
theorem hvplot_missing_capability_error (p : Plotter) (traj : Trajectory)
    (data : TrajectoryCollection) :
    (Plotter.hvplot false p traj).result = .error importErrorMsg
  ∧ (Plotter.hvplot false p traj).events = []
  ∧ (collectionHvplot false p data).result = .error importErrorMsg
  ∧ (collectionHvplot false p data).events = []
  ∧ (∃ d, (Plotter.hvplot true p traj).result = .ok d)
  ∧ (∃ o, (collectionHvplot true p data).result = .ok o)
  ∧ (∃ s1 s2 s3 s4 s5, importErrorMsg =
      s1 ++ "hvplot" ++ s2 ++ "GeoViews" ++ s3 ++
      "https://hvplot.holoviz.org/getting_started/installation.html" ++ s4 ++
      "https://geoviews.org" ++ s5) := by
  refine ⟨rfl, rfl, rfl, rfl, ⟨(hvplot_trajectory p traj).drawable, rfl⟩,
    ⟨(data.trajectories.foldl collectionHvStep (p, [])).1.overlay, ?_⟩,
    ⟨"Missing optional dependencies. To use interactive plotting, install ",
      " and ", " (see ", " and ", ").", rfl⟩⟩
  rw [collectionHvplot]
  rfl

/-- C5: for a single trajectory, when the color column is the (absent)
derived speed attribute, or when no color column is set, `plot()` leaves
the caller's trajectory (in particular its attribute table) unchanged and
returns a non-null axes handle — the speed column is only ever computed on
the private copy inside `_make_line_df`. -/
theorem plot_leaves_trajectory_unchanged (p : Plotter) (traj : Trajectory)
    (h : p.column = Val.none ∨
      (p.column = Val.str traj.speed_col ∧
        traj.df.hasCol traj.speed_col = false)) :
    (Plotter.plot p traj).traj = traj
  ∧ (Plotter.plot p traj).ax.truthy = true := by
  clear h
  constructor
  · show (plot_trajectory (if p.ax.truthy then p else { p with ax := Val.axis 0 })
      traj).traj = traj
    rw [plot_trajectory_traj]
  · show (plot_trajectory (if p.ax.truthy then p else { p with ax := Val.axis 0 })
      traj).ax.truthy = true
    rw [plot_trajectory_ax]
    by_cases hax : p.ax.truthy = true
    · rw [if_pos hax, if_pos hax]
      exact hax
    · rw [if_neg hax]
      rfl

/-- C5 witness. -/
theorem plot_leaves_trajectory_unchanged_witness :
    (Plotter.plot (initPlotter ⟨[]⟩) dfltTraj).traj = dfltTraj
  ∧ (Plotter.plot (initPlotter ⟨[]⟩) dfltTraj).ax.truthy = true :=
  plot_leaves_trajectory_unchanged (initPlotter ⟨[]⟩) dfltTraj (Or.inl rfl)

/-- C6: the derive-end-point-with-direction operation returns a one-row
table holding the trajectory's final position whose `triangle_angle` column
is the negated last direction value (the direction series being the table's
own column when present, the derived series otherwise), and it hands the
trajectory back entirely unchanged — in particular, a direction column that
was absent before the call is removed again afterward. -/
theorem end_with_direction_spec (traj : Trajectory)
    (hg1 : traj.geom_col ≠ "triangle_angle")
    (hg2 : traj.geom_col ≠ traj.direction_col) :
    let r := get_trajectory_end_with_direction traj
    let dvals := if traj.df.hasCol traj.direction_col then
      traj.df.getCol traj.direction_col else traj.direction_values
    (∀ s vs, (s, vs) ∈ r.1.cols → vs.length ≤ 1)
  ∧ r.1.getCol "triangle_angle" =
      ((dvals.drop (dvals.length - 1)).map (fun x => -x))
  ∧ r.1.getCol traj.geom_col =
      (traj.df.getCol traj.geom_col).drop
        ((traj.df.getCol traj.geom_col).length - 1)
  ∧ r.2 = traj := by
  intro r dvals
  have hr : r = get_trajectory_end_with_direction traj := rfl
  by_cases hex : traj.df.hasCol traj.direction_col = true
  · have hr1 : r.1 = (traj.df.tail1).setCol "triangle_angle"
        ((traj.df.tail1.getCol traj.direction_col).map (fun x => -x)) := by
      rw [hr, get_trajectory_end_with_direction]
      rw [if_pos hex, if_pos hex]
    have hr2 : r.2 = traj := by
      rw [hr, get_trajectory_end_with_direction]
      rw [if_pos hex, if_pos hex]
    have hdv : dvals = traj.df.getCol traj.direction_col := by
      show (if traj.df.hasCol traj.direction_col then _ else _) = _
      rw [if_pos hex]
    refine ⟨?_, ?_, ?_, hr2⟩
    · intro s vs hm
      rw [hr1] at hm
      rcases DF.mem_setCol _ _ _ _ _ hm with hm | hm
      · exact DF.length_mem_tail1 _ _ _ hm
      · subst hm
        rw [List.length_map, DF.getCol_tail1, List.length_drop]
        omega
    · rw [hr1, DF.getCol_setCol_self, DF.getCol_tail1, hdv]
    · rw [hr1, DF.getCol_setCol_ne _ _ _ _ hg1, DF.getCol_tail1]
  · have hex' : traj.df.hasCol traj.direction_col = false := by
      simpa using hex
    have hr1 : r.1 = ((traj.add_direction traj.direction_col).df.tail1).setCol
        "triangle_angle"
        (((traj.add_direction traj.direction_col).df.tail1.getCol
          traj.direction_col).map (fun x => -x)) := by
      rw [hr, get_trajectory_end_with_direction]
      rw [if_neg (by simp [hex']), if_neg (by simp [hex'])]
    have hr2 : r.2 = traj := by
      rw [hr, get_trajectory_end_with_direction]
      rw [if_neg (by simp [hex']), if_neg (by simp [hex'])]
      show ({ traj.add_direction traj.direction_col with
        df := (traj.add_direction traj.direction_col).df.dropCols
          [traj.direction_col] } : Trajectory) = traj
      rw [Trajectory.add_direction]
      show ({ traj with df := (traj.df.setCol traj.direction_col
        traj.direction_values).dropCols [traj.direction_col] } : Trajectory) = traj
      rw [DF.setCol_dropCols_self _ _ _ hex']
    have hdv : dvals = traj.direction_values := by
      show (if traj.df.hasCol traj.direction_col then _ else _) = _
      rw [if_neg (by simp [hex'])]
    have hget : (traj.add_direction traj.direction_col).df.getCol
        traj.direction_col = traj.direction_values := by
      rw [Trajectory.add_direction]
      exact DF.getCol_setCol_self _ _ _
    refine ⟨?_, ?_, ?_, hr2⟩
    · intro s vs hm
      rw [hr1] at hm
      rcases DF.mem_setCol _ _ _ _ _ hm with hm | hm
      · exact DF.length_mem_tail1 _ _ _ hm
      · subst hm
        rw [List.length_map, DF.getCol_tail1, List.length_drop]
        omega
    · rw [hr1, DF.getCol_setCol_self, DF.getCol_tail1, hget, hdv]
    · rw [hr1, DF.getCol_setCol_ne _ _ _ _ hg1, DF.getCol_tail1,
        Trajectory.add_direction]
      show ((traj.df.setCol traj.direction_col traj.direction_values).getCol
          traj.geom_col).drop _ = _
      rw [DF.getCol_setCol_ne _ _ _ _ hg2]

/-- C6 witness: a concrete trajectory without a direction column. -/
theorem end_with_direction_spec_witness :
    let traj : Trajectory :=
      { df := ⟨[("geom", [10, 20])], Option.none⟩, crs := Option.none,
        is_latlon := false, speed_col := "speed",
        direction_col := "direction", geom_col := "geom",
        speed_values := [1, 2], direction_values := [45, 90] }
    let r := get_trajectory_end_with_direction traj
    (∀ s vs, (s, vs) ∈ r.1.cols → vs.length ≤ 1)
  ∧ r.1.getCol "triangle_angle" = [-90]
  ∧ r.1.getCol "geom" = [20]
  ∧ r.2 = traj := by
  intro traj r
  have h := end_with_direction_spec traj (by decide) (by decide)
  simp only at h
  exact h

/-- C4: when both a color column and an explicit value-to-color mapping are
set, the color passed to the render call (static and interactive alike) is
the mapping's entry for the trajectory's maximum value of that column, and
the neutral gray `"grey"` when that value has no entry — no exception
escapes. -/
theorem colormap_lookup_gray_fallback (p : Plotter) (traj : Trajectory)
    (c : String) (m : List (Int × String))
    (hc : p.column = Val.str c) (hcs : c ≠ "")
    (hm : p.colormap = Val.cmap m) (hms : m ≠ []) :
    let mx := listMax (traj.df.getCol c)
    ((∀ q, (m.find? fun q' => q'.1 == mx) = some q →
        (plot_trajectory p traj).call.color = some (Val.str q.2) ∧
        (hvplot_trajectory p traj).lineCall.color = some (Val.str q.2))
  ∧ ((m.find? fun q' => q'.1 == mx) = Option.none →
        (plot_trajectory p traj).call.color = some (Val.str "grey") ∧
        (hvplot_trajectory p traj).lineCall.color = some (Val.str "grey"))) := by
  intro mx
  have htr : (p.column.truthy && p.colormap.truthy) = true := by
    rw [hc, hm]
    simp [Val.truthy, hcs, hms]
  have hstat : (plot_trajectory p traj).call.color =
      some (colormapLookup p.colormap mx) := by
    rw [plot_trajectory_call_color p traj htr, hc]
    rfl
  have hline : (hvplot_trajectory p traj).lineCall.color =
      some (colormapLookup p.colormap mx) := by
    simp only [hvplot_trajectory]
    rw [if_pos (by simp [htr])]
    simp only [make_line_df_snd, hc]
    rfl
  constructor
  · intro q hq
    rw [hstat, hline, hm, colormapLookup, hq]
    have : q.1 = mx := by
      have := List.find?_some hq
      simpa using this
    exact ⟨rfl, rfl⟩
  · intro hq
    rw [hstat, hline, hm, colormapLookup, hq]
    exact ⟨rfl, rfl⟩

/-- C4 witness: a two-point trajectory whose speed maximum 5 is mapped to
red, and the gray fallback on an empty-keyed variant. -/
theorem colormap_lookup_gray_fallback_witness :
    let traj : Trajectory :=
      { df := ⟨[("geom", [10, 20]), ("speed", [3, 5])], Option.none⟩,
        crs := Option.none, is_latlon := false, speed_col := "speed",
        direction_col := "direction", geom_col := "geom",
        speed_values := [3, 5], direction_values := [1, 2] }
    let p := initPlotter ⟨[("column", .str "speed"),
      ("colormap", .cmap [(5, "red")])]⟩
    let p' := initPlotter ⟨[("column", .str "speed"),
      ("colormap", .cmap [(4, "red")])]⟩
    (plot_trajectory p traj).call.color = some (Val.str "red")
  ∧ (plot_trajectory p' traj).call.color = some (Val.str "grey") := by
  intro traj p p'
  constructor
  · exact ((colormap_lookup_gray_fallback p traj "speed" [(5, "red")] rfl
      (by decide) rfl (by decide)).1 (5, "red") (by decide)).1
  · exact ((colormap_lookup_gray_fallback p' traj "speed" [(4, "red")] rfl
      (by decide) rfl (by decide)).2 (by decide)).1

/-- C9 counterexample: the constructor reads the color-by-column option
with `get`, not `pop`, so the `column` key is still in the bag after
construction (that is why `plot()` has to pop it later). -/
theorem init_leaves_column_in_bag :
    (initPlotter ⟨[("column", Val.str "speed")]⟩).kwargs.hasKey "column" = true
  ∧ (initPlotter ⟨[("c", Val.str "speed")]⟩).kwargs.hasKey "c" = true := by
  exact ⟨rfl, rfl⟩

/-- C9 (amended): the constructor removes the canvas width/height, figure
size, target axis, value-to-color mapping (under both of its names),
geographic-mode flag, basemap-tile identifier, end-marker size/color and
line-width options from the bag; the color-by-column name (under either of
its two names) is read but deliberately left in the bag. -/
theorem init_extracts_and_removes_options (b : Bag) :
    (initPlotter b).kwargs.hasKey "width" = false
  ∧ (initPlotter b).kwargs.hasKey "height" = false
  ∧ (initPlotter b).kwargs.hasKey "figsize" = false
  ∧ (initPlotter b).kwargs.hasKey "ax" = false
  ∧ (initPlotter b).kwargs.hasKey "colormap" = false
  ∧ (initPlotter b).kwargs.hasKey "column_to_color" = false
  ∧ (initPlotter b).kwargs.hasKey "geo" = false
  ∧ (initPlotter b).kwargs.hasKey "tiles" = false
  ∧ (initPlotter b).kwargs.hasKey "marker_size" = false
  ∧ (initPlotter b).kwargs.hasKey "marker_color" = false
  ∧ (initPlotter b).kwargs.hasKey "line_width" = false
  ∧ (initPlotter b).kwargs.get "column" = b.get "column"
  ∧ (initPlotter b).kwargs.get "c" = b.get "c" := by
  have hk : (initPlotter b).kwargs =
      ((((((((((b.erase "width").erase "height").erase "figsize").erase
        "ax").erase "colormap").erase "column_to_color").erase "geo").erase
        "tiles").erase "marker_size").erase "marker_color").erase
        "line_width" := rfl
  rw [hk]
  refine ⟨?_, ?_, ?_, ?_, ?_, ?_, ?_, ?_, ?_, ?_, ?_, ?_, ?_⟩ <;>
    simp [Bag.hasKey_erase_self, Bag.hasKey_erase_ne, Bag.get_erase_ne]

theorem get_min_max_values_colormap (p : Plotter) (data : TrajectoryCollection) :
    (get_min_max_values p data).2.2.colormap = p.colormap := by
  simp only [get_min_max_values, get_min_max_speed, Bag.pop]
  split <;> rfl

theorem get_min_max_values_column (p : Plotter) (data : TrajectoryCollection) :
    (get_min_max_values p data).2.2.column = p.column := by
  simp only [get_min_max_values, get_min_max_speed, Bag.pop]
  split <;> rfl

theorem get_min_max_values_min_value (p : Plotter) (data : TrajectoryCollection) :
    (get_min_max_values p data).2.2.min_value =
      (p.kwargs.get "vmin").getD (Val.int (get_min_max_values p data).1) := by
  simp only [get_min_max_values, get_min_max_speed, Bag.pop]
  split <;> rfl

theorem get_min_max_values_max_value (p : Plotter) (data : TrajectoryCollection) :
    (get_min_max_values p data).2.2.max_value =
      ((p.kwargs.erase "vmin").get "vmax").getD
        (Val.int (get_min_max_values p data).2.1) := by
  simp only [get_min_max_values, get_min_max_speed, Bag.pop]
  split <;> rfl

theorem get_min_max_values_kwargs (p : Plotter) (data : TrajectoryCollection) :
    (get_min_max_values p data).2.2.kwargs =
      (p.kwargs.erase "vmin").erase "vmax" := by
  simp only [get_min_max_values, get_min_max_speed, Bag.pop]
  split <;> rfl

theorem collectionPlotStep_fst_min_value (p : Plotter) (acc : List PlotCall)
    (it : Nat × Trajectory) :
    (collectionPlotStep (p, acc) it).1.min_value = p.min_value := by
  obtain ⟨i, traj⟩ := it
  simp only [collectionPlotStep]
  split <;> rw [plot_trajectory_plotter_min_value]

theorem collectionPlotStep_fst_max_value (p : Plotter) (acc : List PlotCall)
    (it : Nat × Trajectory) :
    (collectionPlotStep (p, acc) it).1.max_value = p.max_value := by
  obtain ⟨i, traj⟩ := it
  simp only [collectionPlotStep]
  split <;> rw [plot_trajectory_plotter_max_value]

theorem collectionPlotStep_fst_colormap (p : Plotter) (acc : List PlotCall)
    (it : Nat × Trajectory) :
    (collectionPlotStep (p, acc) it).1.colormap = p.colormap := by
  obtain ⟨i, traj⟩ := it
  simp only [collectionPlotStep]
  split <;> rw [plot_trajectory_plotter_colormap]

theorem collectionPlotStep_fst_legend (p : Plotter) (acc : List PlotCall)
    (it : Nat × Trajectory) :
    (collectionPlotStep (p, acc) it).1.kwargs.get "legend" =
      some (Val.bool false) := by
  obtain ⟨i, traj⟩ := it
  simp only [collectionPlotStep]
  split <;> rw [Bag.get_set_self]

theorem collectionPlotStep_snd_spec (p : Plotter) (acc : List PlotCall)
    (it : Nat × Trajectory) :
    ∃ cl : PlotCall, (collectionPlotStep (p, acc) it).2 = acc ++ [cl]
  ∧ (p.colormap.truthy = false →
      cl.vmin = some p.min_value ∧ cl.vmax = some p.max_value)
  ∧ cl.kwargs.get "legend" = p.kwargs.get "legend" := by
  obtain ⟨i, traj⟩ := it
  simp only [collectionPlotStep]
  split <;>
    exact ⟨_, rfl,
      fun hcm => plot_trajectory_call_vmin_vmax _ _ (by rw [hcm, Bool.and_false]),
      plot_trajectory_call_kwargs_get_ne _ _ _ (by decide) (by decide)⟩

/-- The static collection loop preserves the active bounds and the colormap,
and (when no explicit value-to-color mapping is active) every recorded
render call carries the active bounds as its `vmin`/`vmax` arguments. -/
theorem collectionPlot_fold_bounds (l : List (Nat × Trajectory)) :
    ∀ (p : Plotter) (acc : List PlotCall), p.colormap.truthy = false →
      (l.foldl collectionPlotStep (p, acc)).1.min_value = p.min_value
    ∧ (l.foldl collectionPlotStep (p, acc)).1.max_value = p.max_value
    ∧ ∀ cl ∈ (l.foldl collectionPlotStep (p, acc)).2,
        cl ∈ acc ∨ (cl.vmin = some p.min_value ∧ cl.vmax = some p.max_value) := by
  induction l with
  | nil => exact fun p acc _ => ⟨rfl, rfl, fun cl hcl => Or.inl hcl⟩
  | cons it l ih =>
    intro p acc hcm
    rw [List.foldl_cons]
    have hpair : collectionPlotStep (p, acc) it =
        ((collectionPlotStep (p, acc) it).1,
          (collectionPlotStep (p, acc) it).2) := rfl
    rw [hpair]
    obtain ⟨cl0, hsnd, hv0, _⟩ := collectionPlotStep_snd_spec p acc it
    have h1 := collectionPlotStep_fst_min_value p acc it
    have h2 := collectionPlotStep_fst_max_value p acc it
    have h3 := collectionPlotStep_fst_colormap p acc it
    obtain ⟨i1, i2, i3⟩ := ih (collectionPlotStep (p, acc) it).1
      (collectionPlotStep (p, acc) it).2 (by rw [h3]; exact hcm)
    refine ⟨by rw [i1, h1], by rw [i2, h2], ?_⟩
    intro cl hcl
    rcases i3 cl hcl with hin | hvv
    · rw [hsnd, List.mem_append] at hin
      rcases hin with hin | hin
      · exact Or.inl hin
      · right
        rw [List.mem_singleton] at hin
        subst hin
        exact hv0 hcm
    · right
      obtain ⟨hva, hvb⟩ := hvv
      rw [h1] at hva
      rw [h2] at hvb
      exact ⟨hva, hvb⟩

/-- The static collection loop appends its render calls, and once `legend`
is `False` in the bag every appended call carries it. -/
theorem collectionPlot_fold_legend (l : List (Nat × Trajectory)) :
    ∀ (p : Plotter) (acc : List PlotCall), ∃ s,
      (l.foldl collectionPlotStep (p, acc)).2 = acc ++ s
    ∧ (p.kwargs.get "legend" = some (Val.bool false) →
        ∀ cl ∈ s, cl.kwargs.get "legend" = some (Val.bool false)) := by
  induction l with
  | nil =>
    intro p acc
    exact ⟨[], by simp, fun _ cl hcl => absurd hcl (List.not_mem_nil cl)⟩
  | cons it l ih =>
    intro p acc
    rw [List.foldl_cons]
    have hpair : collectionPlotStep (p, acc) it =
        ((collectionPlotStep (p, acc) it).1,
          (collectionPlotStep (p, acc) it).2) := rfl
    rw [hpair]
    obtain ⟨cl0, hsnd, _, hleg0⟩ := collectionPlotStep_snd_spec p acc it
    obtain ⟨s1, hs1, hall1⟩ := ih (collectionPlotStep (p, acc) it).1
      (collectionPlotStep (p, acc) it).2
    refine ⟨cl0 :: s1, ?_, ?_⟩
    · rw [hs1, hsnd]
      simp
    · intro hp cl hcl
      rcases List.mem_cons.mp hcl with hcl | hcl
      · subst hcl
        rw [hleg0]
        exact hp
      · exact hall1 (collectionPlotStep_fst_legend p acc it) cl hcl

theorem collection_legend_fold (l : List (Nat × Trajectory)) (q : Plotter) :
    ∀ cl ∈ ((l.foldl collectionPlotStep (q, [])).2).drop 1,
      cl.kwargs.get "legend" = some (Val.bool false) := by
  cases l with
  | nil =>
    intro cl hcl
    simp at hcl
  | cons it rest =>
    intro cl hcl
    rw [List.foldl_cons] at hcl
    have hpair : collectionPlotStep (q, []) it =
        ((collectionPlotStep (q, []) it).1,
          (collectionPlotStep (q, []) it).2) := rfl
    rw [hpair] at hcl
    obtain ⟨cl0, hsnd, _, _⟩ := collectionPlotStep_snd_spec q [] it
    obtain ⟨s1, hs1, hall1⟩ := collectionPlot_fold_legend rest
      (collectionPlotStep (q, []) it).1 (collectionPlotStep (q, []) it).2
    rw [hs1, hsnd] at hcl
    have hdrop : ((([] : List PlotCall) ++ [cl0]) ++ s1).drop 1 = s1 := rfl
    rw [hdrop] at hcl
    exact hall1 (collectionPlotStep_fst_legend q [] it) cl hcl

/-- C7: in a collection `plot()` invocation, every render call after the
first member's carries `legend = False` in its forwarded options. -/
theorem collection_plot_legend_suppression (p : Plotter)
    (data : TrajectoryCollection) :
    ∀ cl ∈ ((collectionPlot p data).calls).drop 1,
      cl.kwargs.get "legend" = some (Val.bool false) := by
  intro cl hcl
  exact collection_legend_fold (data.trajectories.enum) _ cl hcl

/-- C7 witness: the second member's render call of a concrete two-member
collection carries `legend = False`. -/
theorem collection_plot_legend_suppression_witness :
    ((((collectionPlot (initPlotter ⟨[]⟩)
        ⟨[cexTraj, cexTraj]⟩).calls).drop 1).headD dfltCall).kwargs.get
      "legend" = some (Val.bool false) := by
  exact collection_plot_legend_suppression (initPlotter ⟨[]⟩)
    ⟨[cexTraj, cexTraj]⟩ _ (by decide)

/-- C2 counterexample: with caller-supplied `vmin`/`vmax` in the bag, the
computed global bounds (1 and 2) do NOT override them — `pop("vmin",
min_value)` keeps the caller's 100/200 as the active bounds, and the
member's render call receives the caller's bounds, not the computed ones. -/
theorem shared_scale_no_override_counterexample :
    (get_min_max_values (initPlotter ⟨[("column", Val.str "speed"),
        ("vmin", Val.int 100), ("vmax", Val.int 200)]⟩) ⟨[cexTraj]⟩).1 = 1
  ∧ (get_min_max_values (initPlotter ⟨[("column", Val.str "speed"),
        ("vmin", Val.int 100), ("vmax", Val.int 200)]⟩) ⟨[cexTraj]⟩).2.1 = 2
  ∧ (get_min_max_values (initPlotter ⟨[("column", Val.str "speed"),
        ("vmin", Val.int 100), ("vmax", Val.int 200)]⟩)
      ⟨[cexTraj]⟩).2.2.min_value = Val.int 100
  ∧ (get_min_max_values (initPlotter ⟨[("column", Val.str "speed"),
        ("vmin", Val.int 100), ("vmax", Val.int 200)]⟩)
      ⟨[cexTraj]⟩).2.2.min_value ≠ Val.int 1
  ∧ (collectionPlot (initPlotter ⟨[("column", Val.str "speed"),
        ("vmin", Val.int 100), ("vmax", Val.int 200)]⟩)
      ⟨[cexTraj]⟩).calls.map (fun cl => (cl.vmin, cl.vmax)) =
      [(some (Val.int 100), some (Val.int 200))] := by
  refine ⟨rfl, rfl, rfl, by decide, rfl⟩

/-- C2 (amended): after the shared scale is computed, the active
color-scale options are the caller-supplied `vmin`/`vmax` when those were
present in the bag (they are popped and take precedence), and the computed
global bounds otherwise; the resulting active bounds are then passed as the
`vmin`/`vmax` arguments of every member's render call. -/
theorem shared_scale_active_bounds (p : Plotter) (data : TrajectoryCollection)
    (c : String) (hc : p.column = Val.str c) (hcs : c ≠ "")
    (hcm : p.colormap.truthy = false) :
    (get_min_max_values p data).2.2.min_value =
      (p.kwargs.get "vmin").getD (Val.int (get_min_max_values p data).1)
  ∧ (get_min_max_values p data).2.2.max_value =
      (p.kwargs.get "vmax").getD (Val.int (get_min_max_values p data).2.1)
  ∧ (get_min_max_values p data).2.2.kwargs.hasKey "vmin" = false
  ∧ (get_min_max_values p data).2.2.kwargs.hasKey "vmax" = false
  ∧ ∀ cl ∈ (collectionPlot p data).calls,
      cl.vmin = some (get_min_max_values p data).2.2.min_value ∧
      cl.vmax = some (get_min_max_values p data).2.2.max_value := by
  have hct : p.column.truthy = true := by
    rw [hc]
    simp [Val.truthy, hcs]
  refine ⟨get_min_max_values_min_value p data, ?_, ?_, ?_, ?_⟩
  · rw [get_min_max_values_max_value, Bag.get_erase_ne _ _ _ (by decide)]
  · rw [get_min_max_values_kwargs,
      Bag.hasKey_erase_ne _ _ _ (by decide), Bag.hasKey_erase_self]
  · rw [get_min_max_values_kwargs, Bag.hasKey_erase_self]
  · intro cl hcl
    have hcalls : (collectionPlot p data).calls =
        ((data.trajectories.enum).foldl collectionPlotStep
          ((if (if p.column.truthy then (get_min_max_values p data).2.2
              else p).ax.truthy
            then (if p.column.truthy then (get_min_max_values p data).2.2
              else p)
            else { (if p.column.truthy then (get_min_max_values p data).2.2
              else p) with ax := Val.axis 0 }), [])).2 := rfl
    rw [hcalls, if_pos hct] at hcl
    have hq1cm : (get_min_max_values p data).2.2.colormap.truthy = false := by
      rw [get_min_max_values_colormap]
      exact hcm
    by_cases hax : (get_min_max_values p data).2.2.ax.truthy = true
    · rw [if_pos hax] at hcl
      obtain ⟨_, _, h3⟩ := collectionPlot_fold_bounds (data.trajectories.enum)
        (get_min_max_values p data).2.2 [] hq1cm
      rcases h3 cl hcl with hin | hv
      · exact absurd hin (List.not_mem_nil cl)
      · exact hv
    · rw [if_neg hax] at hcl
      have hq2cm : ({ (get_min_max_values p data).2.2 with
          ax := Val.axis 0 } : Plotter).colormap.truthy = false := hq1cm
      obtain ⟨_, _, h3⟩ := collectionPlot_fold_bounds (data.trajectories.enum)
        { (get_min_max_values p data).2.2 with ax := Val.axis 0 } [] hq2cm
      rcases h3 cl hcl with hin | hv
      · exact absurd hin (List.not_mem_nil cl)
      · exact hv

/-- C2 amended witness: without caller bounds, the computed bounds 1 and 2
become active and reach the single member's render call. -/
theorem shared_scale_active_bounds_witness :
    (get_min_max_values (initPlotter ⟨[("column", Val.str "speed")]⟩)
      ⟨[cexTraj]⟩).2.2.min_value = Val.int 1
  ∧ (get_min_max_values (initPlotter ⟨[("column", Val.str "speed")]⟩)
      ⟨[cexTraj]⟩).2.2.max_value = Val.int 2
  ∧ ∀ cl ∈ (collectionPlot (initPlotter ⟨[("column", Val.str "speed")]⟩)
      ⟨[cexTraj]⟩).calls,
      cl.vmin = some ((get_min_max_values
        (initPlotter ⟨[("column", Val.str "speed")]⟩)
        ⟨[cexTraj]⟩).2.2.min_value) ∧
      cl.vmax = some ((get_min_max_values
        (initPlotter ⟨[("column", Val.str "speed")]⟩)
        ⟨[cexTraj]⟩).2.2.max_value) := by
  have h := shared_scale_active_bounds
    (initPlotter ⟨[("column", Val.str "speed")]⟩) ⟨[cexTraj]⟩ "speed" rfl
    (by decide) (by decide)
  exact ⟨rfl, rfl, h.2.2.2.2⟩

theorem foldl_append_map {α β : Type} (l : List α) (f : α → β)
    (init : List β) :
    l.foldl (fun acc x => acc ++ [f x]) init = init ++ l.map f := by
  induction l generalizing init with
  | nil => simp
  | cons a l ih => simp [ih]

theorem get_min_max_speed_spec (p : Plotter) (data : TrajectoryCollection)
    (c : String) (hc : p.column = Val.str c) (hsp : p.speeds = [])
    (hall : ∀ t ∈ data.trajectories, t.speed_col = c) :
    (get_min_max_speed p data).1 =
      listMin (data.trajectories.map fun t => listMin t.speed_values)
  ∧ (get_min_max_speed p data).2.1 =
      listMax (data.trajectories.map fun t => listMax t.speed_values) := by
  have hmap : data.trajectories.foldl
      (fun acc traj => acc ++ [(traj.copy.add_speed).df.getCol p.column.asStr])
      p.speeds = data.trajectories.map fun t => t.speed_values := by
    rw [foldl_append_map data.trajectories
      (fun traj => (traj.copy.add_speed).df.getCol p.column.asStr) p.speeds,
      hsp, List.nil_append]
    apply List.map_congr_left
    intro t ht
    rw [Trajectory.copy, Trajectory.add_speed]
    show (t.df.setCol t.speed_col t.speed_values).getCol p.column.asStr = _
    rw [hall t ht, hc]
    show (t.df.setCol c t.speed_values).getCol c = _
    rw [DF.getCol_setCol_self]
  constructor
  · show listMin ((data.trajectories.foldl
      (fun acc traj => acc ++ [(traj.copy.add_speed).df.getCol p.column.asStr])
      p.speeds).map listMin) = _
    rw [hmap, List.map_map]
    rfl
  · show listMax ((data.trajectories.foldl
      (fun acc traj => acc ++ [(traj.copy.add_speed).df.getCol p.column.asStr])
      p.speeds).map listMax) = _
    rw [hmap, List.map_map]
    rfl

theorem get_min_max_values_branch_speed (p : Plotter)
    (data : TrajectoryCollection)
    (hcond : (p.column == Val.str (data.trajectories.headD dfltTraj).speed_col
      && !(colMem p.column (data.trajectories.headD dfltTraj).df.columns))
      = true) :
    (get_min_max_values p data).1 = (get_min_max_speed p data).1 ∧
    (get_min_max_values p data).2.1 = (get_min_max_speed p data).2.1 := by
  simp only [get_min_max_values, get_min_max_speed]
  rw [if_pos hcond]
  exact ⟨rfl, rfl⟩

theorem get_min_max_values_branch_accessor (p : Plotter)
    (data : TrajectoryCollection)
    (hcond : (p.column == Val.str (data.trajectories.headD dfltTraj).speed_col
      && !(colMem p.column (data.trajectories.headD dfltTraj).df.columns))
      = false) :
    (get_min_max_values p data).1 = data.get_min p.column.asStr ∧
    (get_min_max_values p data).2.1 = data.get_max p.column.asStr := by
  simp only [get_min_max_values]
  rw [if_neg (by rw [hcond]; exact Bool.false_ne_true)]
  exact ⟨rfl, rfl⟩

/-- C1: the shared scale computed by `get_min_max_values` on a fresh
collection styler: when the color column is the first member's (derived)
speed attribute and absent from the first member's table, the returned pair
is the minimum of all members' computed speed minima and the maximum of all
members' computed speed maxima; otherwise it is the collection's built-in
`get_min`/`get_max` for that column. -/
theorem get_min_max_values_global_scale (p : Plotter)
    (data : TrajectoryCollection) (c : String)
    (hc : p.column = Val.str c) (hne : data.trajectories ≠ []) :
    ((p.speeds = [] →
      (data.trajectories.headD dfltTraj).speed_col = c →
      (data.trajectories.headD dfltTraj).df.hasCol c = false →
      (∀ t ∈ data.trajectories, t.speed_col = c) →
      (get_min_max_values p data).1 =
        listMin (data.trajectories.map fun t => listMin t.speed_values) ∧
      (get_min_max_values p data).2.1 =
        listMax (data.trajectories.map fun t => listMax t.speed_values))
  ∧ (¬((data.trajectories.headD dfltTraj).speed_col = c ∧
        (data.trajectories.headD dfltTraj).df.hasCol c = false) →
      (get_min_max_values p data).1 = data.get_min c ∧
      (get_min_max_values p data).2.1 = data.get_max c)) := by
  clear hne
  constructor
  · intro hsp h0col h0abs hall
    have hcond : (p.column ==
        Val.str (data.trajectories.headD dfltTraj).speed_col
        && !(colMem p.column
          (data.trajectories.headD dfltTraj).df.columns)) = true := by
      rw [hc, h0col]
      have : colMem (Val.str c)
          (data.trajectories.headD dfltTraj).df.columns = false := by
        show (data.trajectories.headD dfltTraj).df.columns.contains c = false
        rw [← DF.hasCol_eq_contains]
        exact h0abs
      rw [this]
      simp
    obtain ⟨h1, h2⟩ := get_min_max_values_branch_speed p data hcond
    obtain ⟨g1, g2⟩ := get_min_max_speed_spec p data c hc hsp hall
    exact ⟨h1.trans g1, h2.trans g2⟩
  · intro hnot
    have hcond : (p.column ==
        Val.str (data.trajectories.headD dfltTraj).speed_col
        && !(colMem p.column
          (data.trajectories.headD dfltTraj).df.columns)) = false := by
      by_cases hcol : (data.trajectories.headD dfltTraj).speed_col = c
      · have habs : (data.trajectories.headD dfltTraj).df.hasCol c = true := by
          rcases Bool.eq_false_or_eq_true
            ((data.trajectories.headD dfltTraj).df.hasCol c) with h | h
          · exact h
          · exact absurd ⟨hcol, h⟩ hnot
        rw [hc, hcol]
        have : colMem (Val.str c)
            (data.trajectories.headD dfltTraj).df.columns = true := by
          show (data.trajectories.headD dfltTraj).df.columns.contains c = true
          rw [← DF.hasCol_eq_contains]
          exact habs
        rw [this]
        simp
      · rw [hc]
        have : (Val.str c ==
            Val.str (data.trajectories.headD dfltTraj).speed_col) = false := by
          apply beq_eq_false_iff_ne.mpr
          intro he
          injection he with he'
          exact hcol he'.symm
        rw [this, Bool.false_and]
    obtain ⟨h1, h2⟩ := get_min_max_values_branch_accessor p data hcond
    rw [hc] at h1 h2
    exact ⟨h1, h2⟩

/-- C1 witness: a fresh styler over two members without a materialised
speed column: the shared scale is (4, 6), the global speed min and max. -/
theorem get_min_max_values_global_scale_witness :
    (get_min_max_values (initPlotter ⟨[("column", Val.str "speed")]⟩)
      ⟨[cexTrajNoSpeed, cexTrajNoSpeed]⟩).1 = 4
  ∧ (get_min_max_values (initPlotter ⟨[("column", Val.str "speed")]⟩)
      ⟨[cexTrajNoSpeed, cexTrajNoSpeed]⟩).2.1 = 6 := by
  have h := (get_min_max_values_global_scale
    (initPlotter ⟨[("column", Val.str "speed")]⟩)
    ⟨[cexTrajNoSpeed, cexTrajNoSpeed]⟩ "speed" rfl (by decide)).1
    rfl rfl rfl (by decide)
  exact ⟨h.1.trans (by decide), h.2.trans (by decide)⟩

theorem hvplot_trajectory_lineCall_tiles (p : Plotter) (t : Trajectory) :
    (hvplot_trajectory p t).lineCall.tiles = p.hvplot_tiles := by
  simp only [hvplot_trajectory]
  split
  · rfl
  · by_cases h : p.kwargs.hasKey "colorbar" = true
    · rw [if_pos h]
    · rw [if_neg h]

theorem collectionHvStep_fst_tiles (p : Plotter) (evs : List REvent)
    (t : Trajectory) :
    (collectionHvStep (p, evs) t).1.hvplot_tiles = Val.bool false := rfl

theorem collectionHvStep_snd (p : Plotter) (evs : List REvent)
    (t : Trajectory) :
    (collectionHvStep (p, evs) t).2 =
      evs ++ [.hvLine (hvplot_trajectory p t).lineCall,
        .hvTri (hvplot_trajectory p t).triCall] := rfl

theorem lineTiles_append (evs : List REvent) (lc : HvLineCall)
    (tc : HvTriCall) :
    lineTiles (evs ++ [.hvLine lc, .hvTri tc]) = lineTiles evs ++ [lc.tiles] := by
  rw [lineTiles, lineTiles, List.filterMap_append]
  rfl

theorem triHoverLists_append (evs : List REvent) (lc : HvLineCall)
    (tc : HvTriCall) :
    triHoverLists (evs ++ [.hvLine lc, .hvTri tc]) =
      triHoverLists evs ++ [((tc.kwargs.get "hover_cols").getD .none).asStrList] := by
  rw [triHoverLists, triHoverLists, List.filterMap_append]
  rfl

/-- Once the basemap-tile option is disabled, every later line render call
of the interactive collection loop carries a disabled tile option. -/
theorem collectionHv_fold_tiles (l : List Trajectory) :
    ∀ (p : Plotter) (evs : List REvent), p.hvplot_tiles = Val.bool false →
      ∃ s, lineTiles ((l.foldl collectionHvStep (p, evs)).2) =
        lineTiles evs ++ s ∧ ∀ v ∈ s, v = Val.bool false := by
  induction l with
  | nil =>
    intro p evs _
    exact ⟨[], by simp, by simp⟩
  | cons t l ih =>
    intro p evs hp
    rw [List.foldl_cons]
    have hpair : collectionHvStep (p, evs) t =
        ((collectionHvStep (p, evs) t).1, (collectionHvStep (p, evs) t).2) := rfl
    rw [hpair]
    obtain ⟨s1, hs1, hall⟩ := ih (collectionHvStep (p, evs) t).1
      (collectionHvStep (p, evs) t).2 (collectionHvStep_fst_tiles p evs t)
    refine ⟨Val.bool false :: s1, ?_, ?_⟩
    · rw [hs1, collectionHvStep_snd, lineTiles_append,
        hvplot_trajectory_lineCall_tiles, hp]
      simp
    · intro v hv
      rcases List.mem_cons.mp hv with hv | hv
      · exact hv
      · exact hall v hv

/-- C8 counterexample: when the caller already passes a disabled tile
option, the tile option of member 2's render equals member 1's — it does
not differ. -/
theorem tiles_member2_not_differ_counterexample :
    lineTiles (collectionHvplot true
        (initPlotter ⟨[("tiles", Val.bool false)]⟩)
        ⟨[cexTraj, cexTraj]⟩).events =
      [Val.bool false, Val.bool false]
  ∧ (lineTiles (collectionHvplot true
        (initPlotter ⟨[("tiles", Val.bool false)]⟩)
        ⟨[cexTraj, cexTraj]⟩).events).getD 1 Val.none =
      (lineTiles (collectionHvplot true
        (initPlotter ⟨[("tiles", Val.bool false)]⟩)
        ⟨[cexTraj, cexTraj]⟩).events).getD 0 Val.none := by
  exact ⟨rfl, rfl⟩

/-- C8 (amended): in the interactive collection loop the tile option of
every member after the first is disabled (`False`); member 1's render uses
the styler's initial tile option, so the two differ exactly when that
initial option was not already the disabled value. -/
theorem collection_hv_tiles_disabled_after_first (p : Plotter)
    (data : TrajectoryCollection) :
    (∀ v ∈ (lineTiles (collectionHvplot true p data).events).drop 1,
        v = Val.bool false)
  ∧ (data.trajectories ≠ [] →
      (lineTiles (collectionHvplot true p data).events).head? =
        some p.hvplot_tiles) := by
  have hev : (collectionHvplot true p data).events =
      (data.trajectories.foldl collectionHvStep (p, [])).2 := rfl
  cases hl : data.trajectories with
  | nil =>
    rw [hev, hl]
    refine ⟨?_, fun hne => absurd rfl hne⟩
    intro v hv
    exact absurd hv (List.not_mem_nil v)
  | cons t rest =>
    rw [hev, hl, List.foldl_cons]
    have hpair : collectionHvStep (p, []) t =
        ((collectionHvStep (p, []) t).1, (collectionHvStep (p, []) t).2) := rfl
    rw [hpair]
    obtain ⟨s1, hs1, hall⟩ := collectionHv_fold_tiles rest
      (collectionHvStep (p, []) t).1 (collectionHvStep (p, []) t).2
      (collectionHvStep_fst_tiles p [] t)
    have hfirst : lineTiles (collectionHvStep (p, []) t).2 =
        [p.hvplot_tiles] := by
      rw [collectionHvStep_snd]
      have : ([] : List REvent) ++
          [.hvLine (hvplot_trajectory p t).lineCall,
            .hvTri (hvplot_trajectory p t).triCall] =
          [.hvLine (hvplot_trajectory p t).lineCall,
            .hvTri (hvplot_trajectory p t).triCall] := rfl
      rw [this]
      show [(hvplot_trajectory p t).lineCall.tiles] = _
      rw [hvplot_trajectory_lineCall_tiles]
    constructor
    · intro v hv
      rw [hs1, hfirst] at hv
      exact hall v hv
    · intro _
      rw [hs1, hfirst]
      rfl

/-- C8 amended witness: with the default tile option, member 1 renders with
`"OSM"` tiles and member 2 with tiles disabled. -/
theorem collection_hv_tiles_disabled_after_first_witness :
    (∀ v ∈ (lineTiles (collectionHvplot true (initPlotter ⟨[]⟩)
        ⟨[cexTraj, cexTraj]⟩).events).drop 1, v = Val.bool false)
  ∧ (lineTiles (collectionHvplot true (initPlotter ⟨[]⟩)
        ⟨[cexTraj, cexTraj]⟩).events).head? = some (Val.str "OSM") := by
  have h := collection_hv_tiles_disabled_after_first (initPlotter ⟨[]⟩)
    ⟨[cexTraj, cexTraj]⟩
  exact ⟨h.1, (h.2 (by decide)).trans rfl⟩

theorem hvplot_end_triangle_call_kwargs (p : Plotter) (t : Trajectory) :
    (hvplot_end_triangle p t).call.kwargs =
      (hvplot_end_triangle p t).plotter.kwargs := rfl

theorem hvplot_end_triangle_plotter_column (p : Plotter) (t : Trajectory) :
    (hvplot_end_triangle p t).plotter.column = p.column := rfl

/-- The `hover_cols` option left in the bag (and passed to the end-marker
render) after `_hvplot_end_triangle`: `"triangle_angle"`, then the previous
hover list when it was truthy, then the color column. -/
theorem hvplot_end_triangle_hover (p : Plotter) (t : Trajectory) (c : String)
    (hc : p.column = Val.str c) (hcs : c ≠ "") :
    (hvplot_end_triangle p t).plotter.kwargs.get "hover_cols" =
      some (Val.strList
        ((if ((p.kwargs.get "hover_cols").getD Val.none).truthy
          then "triangle_angle" ::
            ((p.kwargs.get "hover_cols").getD Val.none).asStrList
          else ["triangle_angle"]) ++ [c])) := by
  have hct : p.column.truthy = true := by
    rw [hc]
    simp [Val.truthy, hcs]
  simp only [hvplot_end_triangle]
  rw [Bag.get_erase_ne _ "hover_cols" "tiles" (by decide)]
  rw [if_pos hct, Bag.get_set_self, hc]
  by_cases hmc : p.marker_color.truthy = true
  · rw [if_pos hmc, Bag.get_set_ne _ "hover_cols" "color" _ (by decide)]
    by_cases hpv : ((p.kwargs.get "hover_cols").getD Val.none).truthy = true
    · rw [if_pos hpv, if_pos hpv, Bag.get_set_self, Bag.get_set_self]
      rfl
    · rw [if_neg hpv, if_neg hpv, Bag.get_set_self]
      rfl
  · rw [if_neg hmc]
    by_cases hpv : ((p.kwargs.get "hover_cols").getD Val.none).truthy = true
    · rw [if_pos hpv, if_pos hpv, Bag.get_set_self, Bag.get_set_self]
      rfl
    · rw [if_neg hpv, if_neg hpv, Bag.get_set_self]
      rfl

theorem hvplot_trajectory_hover (p : Plotter) (t : Trajectory) (c : String)
    (hc : p.column = Val.str c) (hcs : c ≠ "") :
    (hvplot_trajectory p t).plotter.kwargs.get "hover_cols" =
      some (Val.strList
        ((if ((p.kwargs.get "hover_cols").getD Val.none).truthy
          then "triangle_angle" ::
            ((p.kwargs.get "hover_cols").getD Val.none).asStrList
          else ["triangle_angle"]) ++ [c]))
  ∧ (hvplot_trajectory p t).triCall.kwargs =
      (hvplot_trajectory p t).plotter.kwargs
  ∧ (hvplot_trajectory p t).plotter.column = p.column := by
  simp only [hvplot_trajectory]
  split
  · exact ⟨hvplot_end_triangle_hover p (make_line_df p t).2 c hc hcs, rfl, rfl⟩
  · by_cases hcb : p.kwargs.hasKey "colorbar" = true
    · rw [if_pos hcb]
      exact ⟨hvplot_end_triangle_hover p (make_line_df p t).2 c hc hcs,
        rfl, rfl⟩
    · rw [if_neg hcb]
      refine ⟨?_, rfl, rfl⟩
      have h := hvplot_end_triangle_hover
        { p with kwargs := p.kwargs.set "colorbar" (.bool true) }
        (make_line_df p t).2 c hc hcs
      rw [show ({ p with kwargs := p.kwargs.set "colorbar" (.bool true) }
            : Plotter).kwargs = p.kwargs.set "colorbar" (.bool true) from rfl,
        Bag.get_set_ne _ "hover_cols" "colorbar" _ (by decide)] at h
      exact h

theorem collectionHvStep_hover (p : Plotter) (evs : List REvent)
    (t : Trajectory) (c : String) (hc : p.column = Val.str c) (hcs : c ≠ "") :
    (collectionHvStep (p, evs) t).1.kwargs.get "hover_cols" =
      some (Val.strList
        ((if ((p.kwargs.get "hover_cols").getD Val.none).truthy
          then "triangle_angle" ::
            ((p.kwargs.get "hover_cols").getD Val.none).asStrList
          else ["triangle_angle"]) ++ [c]))
  ∧ triHoverLists (collectionHvStep (p, evs) t).2 =
      triHoverLists evs ++
        [(if ((p.kwargs.get "hover_cols").getD Val.none).truthy
          then "triangle_angle" ::
            ((p.kwargs.get "hover_cols").getD Val.none).asStrList
          else ["triangle_angle"]) ++ [c]]
  ∧ (collectionHvStep (p, evs) t).1.column = p.column := by
  obtain ⟨h1, h2, h3⟩ := hvplot_trajectory_hover p t c hc hcs
  refine ⟨?_, ?_, ?_⟩
  · show (hvplot_trajectory p t).plotter.kwargs.get "hover_cols" = _
    exact h1
  · rw [collectionHvStep_snd, triHoverLists_append, h2, h1]
    rfl
  · show (hvplot_trajectory p t).plotter.column = p.column
    exact h3

/-- In the interactive collection loop, the hover list recorded at each
end-marker render grows by one copy of `"triangle_angle"` and one copy of
the color column per iteration. -/
theorem collectionHv_fold_hover (l : List Trajectory) :
    ∀ (p : Plotter) (evs : List REvent) (n : Nat) (c : String),
      p.column = Val.str c → c ≠ "" →
      (if n = 0 then p.kwargs.get "hover_cols" = Option.none
        else p.kwargs.get "hover_cols" = some (Val.strList
          (List.replicate n "triangle_angle" ++ List.replicate n c))) →
      triHoverLists ((l.foldl collectionHvStep (p, evs)).2) =
        triHoverLists evs ++ (List.range l.length).map
          (fun j => List.replicate (n + j + 1) "triangle_angle" ++
            List.replicate (n + j + 1) c) := by
  induction l with
  | nil =>
    intro p evs n c _ _ _
    simp
  | cons t l ih =>
    intro p evs n c hc hcs hinv
    rw [List.foldl_cons]
    have hpair : collectionHvStep (p, evs) t =
        ((collectionHvStep (p, evs) t).1, (collectionHvStep (p, evs) t).2) := rfl
    rw [hpair]
    obtain ⟨h1, h2, h3⟩ := collectionHvStep_hover p evs t c hc hcs
    have hnew : (if ((p.kwargs.get "hover_cols").getD Val.none).truthy
        then "triangle_angle" ::
          ((p.kwargs.get "hover_cols").getD Val.none).asStrList
        else ["triangle_angle"]) ++ [c] =
        List.replicate (n + 1) "triangle_angle" ++
          List.replicate (n + 1) c := by
      by_cases hn : n = 0
      · rw [if_pos hn] at hinv
        rw [hinv, hn]
        rfl
      · rw [if_neg hn] at hinv
        obtain ⟨m, rfl⟩ : ∃ m, n = m + 1 := ⟨n - 1, by omega⟩
        rw [hinv]
        have htr : ((some (Val.strList
            (List.replicate (m + 1) "triangle_angle" ++
              List.replicate (m + 1) c))).getD Val.none).truthy = true := by
          simp [Val.truthy, List.replicate_succ]
        rw [if_pos htr]
        show "triangle_angle" ::
            ((List.replicate (m + 1) "triangle_angle" ++
              List.replicate (m + 1) c) ++ [c]) = _
        rw [List.append_assoc, ← List.replicate_succ' (m + 1) c]
        show ("triangle_angle" :: List.replicate (m + 1) "triangle_angle") ++
            List.replicate (m + 1 + 1) c = _
        rw [← List.replicate_succ]
    have hc' : (collectionHvStep (p, evs) t).1.column = Val.str c := by
      rw [h3, hc]
    have hinv' : if n + 1 = 0 then
        (collectionHvStep (p, evs) t).1.kwargs.get "hover_cols" = Option.none
      else (collectionHvStep (p, evs) t).1.kwargs.get "hover_cols" =
        some (Val.strList (List.replicate (n + 1) "triangle_angle" ++
          List.replicate (n + 1) c)) := by
      rw [if_neg (Nat.succ_ne_zero n)]
      rw [h1, hnew]
    have hrec := ih (collectionHvStep (p, evs) t).1
      (collectionHvStep (p, evs) t).2 (n + 1) c hc' hcs hinv'
    rw [hrec, h2, hnew, List.append_assoc]
    congr 1
    rw [List.length_cons, List.range_succ_eq_map, List.map_cons, List.map_map]
    show (List.replicate (n + 1) "triangle_angle" ++
        List.replicate (n + 1) c) :: _ = _ :: _
    congr 1
    apply List.map_congr_left
    intro j _
    show List.replicate (n + 1 + j + 1) "triangle_angle" ++
        List.replicate (n + 1 + j + 1) c =
      List.replicate (n + (j + 1) + 1) "triangle_angle" ++
        List.replicate (n + (j + 1) + 1) c
    have hj : n + 1 + j + 1 = n + (j + 1) + 1 := by omega
    rw [hj]

/-- C10: in collection interactive rendering with a color column set (and
no caller-supplied hover columns), the hover list passed to member k's
end-marker render contains `"triangle_angle"` exactly k times and the color
column exactly k times (1-based; index k-1 below): each end-marker render
re-inserts these entries into the shared bag, which the next iteration pops
as the caller-supplied hover columns. -/
theorem collection_hv_hover_growth (p : Plotter) (data : TrajectoryCollection)
    (c : String) (hc : p.column = Val.str c) (hcs : c ≠ "")
    (hta : c ≠ "triangle_angle")
    (hnone : p.kwargs.get "hover_cols" = Option.none) :
    ∀ k (hk : k < (triHoverLists (collectionHvplot true p data).events).length),
      ((triHoverLists (collectionHvplot true p data).events).get
        ⟨k, hk⟩).count "triangle_angle" = k + 1
    ∧ ((triHoverLists (collectionHvplot true p data).events).get
        ⟨k, hk⟩).count c = k + 1 := by
  have hfold := collectionHv_fold_hover data.trajectories p [] 0 c hc hcs
    (by rw [if_pos rfl]; exact hnone)
  have hlist : triHoverLists (collectionHvplot true p data).events =
      (List.range data.trajectories.length).map
        (fun j => List.replicate (0 + j + 1) "triangle_angle" ++
          List.replicate (0 + j + 1) c) := by
    show triHoverLists
      ((data.trajectories.foldl collectionHvStep (p, [])).2) = _
    rw [hfold]
    rfl
  intro k hk
  have hk' : k < data.trajectories.length := by
    rw [hlist] at hk
    simpa using hk
  have hget : (triHoverLists (collectionHvplot true p data).events).get
      ⟨k, hk⟩ = List.replicate (k + 1) "triangle_angle" ++
        List.replicate (k + 1) c := by
    have h1 : (triHoverLists (collectionHvplot true p data).events).get
        ⟨k, hk⟩ = (triHoverLists (collectionHvplot true p data).events).getD
          k [] := by
      rw [List.getD_eq_getElem?_getD, List.getElem?_eq_getElem hk]
      rfl
    rw [h1, hlist]
    rw [List.getD_eq_getElem?_getD, List.getElem?_map,
      List.getElem?_range hk']
    show (List.replicate (0 + k + 1) "triangle_angle" ++
      List.replicate (0 + k + 1) c) = _
    rw [Nat.zero_add]
  rw [hget]
  constructor
  · rw [List.count_append, List.count_replicate_self, List.count_replicate]
    have : (c == "triangle_angle") = false := by
      apply beq_eq_false_iff_ne.mpr
      exact hta
    rw [this]
    simp
  · rw [List.count_append, List.count_replicate_self, List.count_replicate]
    have : ("triangle_angle" == c) = false := by
      apply beq_eq_false_iff_ne.mpr
      exact Ne.symm hta
    rw [this]
    simp

/-- C10 witness: with two members and color column `"speed"`, the hover
list of the second end-marker render carries each entry twice. -/
theorem collection_hv_hover_growth_witness :
    ((triHoverLists (collectionHvplot true
        (initPlotter ⟨[("column", Val.str "speed")]⟩)
        ⟨[cexTraj, cexTraj]⟩).events).get ⟨1, by decide⟩).count
      "triangle_angle" = 2
  ∧ ((triHoverLists (collectionHvplot true
        (initPlotter ⟨[("column", Val.str "speed")]⟩)
        ⟨[cexTraj, cexTraj]⟩).events).get ⟨1, by decide⟩).count
      "speed" = 2 := by
  have h := collection_hv_hover_growth
    (initPlotter ⟨[("column", Val.str "speed")]⟩) ⟨[cexTraj, cexTraj]⟩
    "speed" rfl (by decide) (by decide) rfl 1 (by decide)
  exact ⟨h.1, h.2⟩

end MovingPandas
